import Mathlib

/-!
Shallow embedding of `m27q.py`, a driver for the Gigabyte M27Q monitor's
OSD control channel over USB control transfers.

Values are modelled as `Int` (Python integers are unbounded); payload bytes
are kept as `Int` entries of a `List Int`.  Fallible Python code (raised
exceptions) is modelled with `Except String`.  USB traffic is modelled by a
`Transport` oracle (what the device acknowledges and replies, as a function
of the operation history) together with an explicit trace of `UsbOp`s.
-/

namespace M27Q

/-- Embeds the Python dataclass `BasicProperty` (range-policy property). -/
structure BasicProperty where
  minimum : Int
  maximum : Int
  message_a : Int
  message_b : Int := 0
  deriving Repr, DecidableEq

/-- `BasicProperty.clamp`: `max(self.minimum, min(self.maximum, v))`. -/
def BasicProperty.clamp (p : BasicProperty) (v : Int) : Int :=
  max p.minimum (min p.maximum v)

/-- Embeds the Python dataclass `EnumProperty` (enumeration-policy property). -/
structure EnumProperty where
  allowed : List Int
  message_a : Int
  message_b : Int := 0
  deriving Repr, DecidableEq

/-- The message of the exception raised by `EnumProperty.clamp`. -/
def enumErrMsg : String := "Only allowed values"

/-- `EnumProperty.clamp`: raises unless `v` is in the allowed list. -/
def EnumProperty.clamp (p : EnumProperty) (v : Int) : Except String Int :=
  if v ∈ p.allowed then .ok v else .error enumErrMsg

/-- `Property = t.Union[BasicProperty, EnumProperty]`. -/
inductive Property
  | basic : BasicProperty → Property
  | enum : EnumProperty → Property
  deriving Repr, DecidableEq

def Property.message_a : Property → Int
  | .basic p => p.message_a
  | .enum p => p.message_a

def Property.message_b : Property → Int
  | .basic p => p.message_b
  | .enum p => p.message_b

/-- `property.clamp(value)` dispatched over the union type; a `BasicProperty`
never raises, an `EnumProperty` may. -/
def Property.clamp : Property → Int → Except String Int
  | .basic p, v => .ok (p.clamp v)
  | .enum p, v => p.clamp v

/-- One USB control transfer as recorded in the trace. -/
inductive UsbOp
  | write (b_request w_value w_index : Nat) (message : List Int)
  | read (b_request w_value w_index msg_length : Nat)
  deriving Repr, DecidableEq

def UsbOp.isRead : UsbOp → Bool
  | .read _ _ _ _ => true
  | .write _ _ _ _ => false

def UsbOp.isWrite : UsbOp → Bool
  | .read _ _ _ _ => false
  | .write _ _ _ _ => true

/-- The device side of the channel: given the history of operations issued so
far, how many bytes it acknowledges for a host-to-device write, and which
bytes it returns for a device-to-host read. -/
structure Transport where
  writeAck : List UsbOp → List Int → Nat
  readReply : List UsbOp → List Int

/-- The exception message of `usb_write` on a length mismatch. -/
def mismatchMsg : String := "Transferred message length mismatch"

/-- `MonitorControl.usb_write`: issues the control transfer (recorded in the
trace) and raises `IOError` when the acknowledged count differs from the
message length.  The 50 ms pacing sleep has no observable effect here. -/
def usb_write (tr : Transport) (ops : List UsbOp)
    (b_request w_value w_index : Nat) (message : List Int) :
    List UsbOp × Except String Unit :=
  let ack := tr.writeAck ops message
  (ops ++ [UsbOp.write b_request w_value w_index message],
    if ack = message.length then .ok () else .error mismatchMsg)

/-- `MonitorControl.usb_read`: issues the transfer and returns whatever the
transport replies, with no check of any kind. -/
def usb_read (tr : Transport) (ops : List UsbOp)
    (b_request w_value w_index msg_length : Nat) :
    List UsbOp × List Int :=
  (ops ++ [UsbOp.read b_request w_value w_index msg_length], tr.readReply ops)

/-- The exception message standing for Python's `IndexError`. -/
def indexErrMsg : String := "IndexError"

/-- `MonitorControl.get_osd`: write the query payload, read a 12-byte reply
at `wIndex = 111`, return `data[10]` (an out-of-range index raises). -/
def get_osd (tr : Transport) (ops : List UsbOp) (data : List Int) :
    List UsbOp × Except String Int :=
  let w := usb_write tr ops 178 0 0
    ([0x6E, 0x51, 0x81 + (data.length : Int), 0x01] ++ data)
  match w.2 with
  | .error e => (w.1, .error e)
  | .ok () =>
    let r := usb_read tr w.1 162 0 111 12
    match r.2.get? 10 with
    | some v => (r.1, .ok v)
    | none => (r.1, .error indexErrMsg)

/-- `MonitorControl.set_osd`: write the set payload; no reply is read. -/
def set_osd (tr : Transport) (ops : List UsbOp) (data : List Int) :
    List UsbOp × Except String Unit :=
  usb_write tr ops 178 0 0
    ([0x6E, 0x51, 0x81 + (data.length : Int), 0x03] ++ data)

/-- `MonitorControl.set_property`: the argument list
`[message_a, message_b, property.clamp(value)]` is built before `set_osd`
runs, so a clamp exception aborts with no transfer issued. -/
def set_property (tr : Transport) (ops : List UsbOp) (p : Property)
    (value : Int) : List UsbOp × Except String Unit :=
  match p.clamp value with
  | .error e => (ops, .error e)
  | .ok c => set_osd tr ops [p.message_a, p.message_b, c]

/-- `MonitorControl.get_property`: always sends both message bytes. -/
def get_property (tr : Transport) (ops : List UsbOp) (p : Property) :
    List UsbOp × Except String Int :=
  get_osd tr ops [p.message_a, p.message_b]

namespace MonitorControl

def BRIGHTNESS : BasicProperty := ⟨0, 100, 0x10, 0x00⟩
def CONTRAST : BasicProperty := ⟨0, 100, 0x12, 0x00⟩
def SHARPNESS : BasicProperty := ⟨0, 100, 0x87, 0x00⟩
def BLUE_LIGHT_REDUCTION : BasicProperty := ⟨0, 10, 0xe0, 0x0b⟩
def KVM_STATUS : BasicProperty := ⟨0, 1, 0xe0, 0x69⟩
def BLACK_EQUALIZER : BasicProperty := ⟨0, 10, 0xe0, 0x02⟩
def OSD_TIMEOUT : EnumProperty := ⟨[5, 10, 15, 20, 25, 30], 0xe0, 0x30⟩

/-- The class-level attributes of `MonitorControl` that name properties:
this is the program's whole fixed property registry. -/
def registry : List (String × Property) :=
  [("BRIGHTNESS", .basic BRIGHTNESS),
   ("CONTRAST", .basic CONTRAST),
   ("SHARPNESS", .basic SHARPNESS),
   ("BLUE_LIGHT_REDUCTION", .basic BLUE_LIGHT_REDUCTION),
   ("KVM_STATUS", .basic KVM_STATUS),
   ("BLACK_EQUALIZER", .basic BLACK_EQUALIZER),
   ("OSD_TIMEOUT", .enum OSD_TIMEOUT)]

/-- Python attribute lookup `MonitorControl.<name>` restricted to the
property attributes; `none` models an `AttributeError`. -/
def classAttr (name : String) : Option Property :=
  registry.lookup name

end MonitorControl

/-- The exception message standing for Python's `AttributeError` on
`MonitorControl.VOLUME`. -/
def volumeAttrErr : String := "AttributeError: type object MonitorControl has no attribute VOLUME"

/-- `MonitorControl.set_volume`: `self.set_property(MonitorControl.VOLUME, volume)`.
The attribute access is evaluated first; if it fails nothing is transferred. -/
def set_volume (tr : Transport) (ops : List UsbOp) (volume : Int) :
    List UsbOp × Except String Unit :=
  match MonitorControl.classAttr "VOLUME" with
  | none => (ops, .error volumeAttrErr)
  | some p => set_property tr ops p volume

/-- `MonitorControl.get_volume`: `self.get_property(MonitorControl.VOLUME)`. -/
def get_volume (tr : Transport) (ops : List UsbOp) :
    List UsbOp × Except String Int :=
  match MonitorControl.classAttr "VOLUME" with
  | none => (ops, .error volumeAttrErr)
  | some p => get_property tr ops p

/-- The `while diff >= abs(step)` loop of `MonitorControl.transition_property`,
with an explicit fuel: `none` means the fuel ran out before the Python loop
exited (the Python loop does not terminate in that case for any larger fuel
either, or needs more fuel).  `step` here is the already re-signed step. -/
def transition_loop (tr : Transport) (p : Property) :
    Nat → List UsbOp → Int → Int → Int → Option (List UsbOp × Except String Int)
  | 0, _, _, _, _ => none
  | fuel + 1, ops, current, diff, step =>
    if |step| ≤ diff then
      let s := set_property tr ops p (current + step)
      match s.2 with
      | .error e => some (s.1, .error e)
      | .ok () => transition_loop tr p fuel s.1 (current + step) (diff - |step|) step
    else
      some (ops, .ok current)

/-- `MonitorControl.transition_property`: one initial `get_property`, the
re-signing of `step` toward `target`, the stepping loop, and the final
`set_property(target)` when the loop did not land exactly on `target`. -/
def transition_property (tr : Transport) (fuel : Nat) (p : Property)
    (target : Int) (step : Int) : Option (List UsbOp × Except String Unit) :=
  let g := get_property tr [] p
  match g.2 with
  | .error e => some (g.1, .error e)
  | .ok current =>
    let diff := |target - current|
    let sstep := if current ≤ target then step else -step
    match transition_loop tr p fuel g.1 current diff sstep with
    | none => none
    | some (ops1, .error e) => some (ops1, .error e)
    | some (ops1, .ok cur) =>
      if cur ≠ target then some (set_property tr ops1 p target)
      else some (ops1, .ok ())

/-- The same stepping loop, observed only through the values passed to
`set_property`: returns the list of stepped values together with the loop's
final `current`.  This is the loop of lines 126-129 of the source with the
transfers erased. -/
def transition_sets_loop :
    Nat → Int → Int → Int → Option (List Int × Int)
  | 0, _, _, _ => none
  | fuel + 1, current, diff, step =>
    if |step| ≤ diff then
      match transition_sets_loop fuel (current + step) (diff - |step|) step with
      | none => none
      | some (l, c) => some ((current + step) :: l, c)
    else
      some ([], current)

/-- The sequence of values `MonitorControl.transition_property` passes to
`set_property` when the initial read returns `current`: the stepped values,
then one final `target` when the loop did not land exactly on `target`. -/
def transition_sets (current target step : Int) (fuel : Nat) :
    Option (List Int) :=
  let diff := |target - current|
  let sstep := if current ≤ target then step else -step
  match transition_sets_loop fuel current diff sstep with
  | none => none
  | some (l, c) => some (if c ≠ target then l ++ [target] else l)

/-- `MonitorControl.get_kvm_status`. -/
def get_kvm_status (tr : Transport) (ops : List UsbOp) :
    List UsbOp × Except String Int :=
  get_property tr ops (.basic MonitorControl.KVM_STATUS)

/-- `MonitorControl.set_kvm_status`. -/
def set_kvm_status (tr : Transport) (ops : List UsbOp) (status : Int) :
    List UsbOp × Except String Unit :=
  set_property tr ops (.basic MonitorControl.KVM_STATUS) status

/-- `MonitorControl.toggle_kvm`: `self.set_kvm_status(1 - self.get_kvm_status())`. -/
def toggle_kvm (tr : Transport) (ops : List UsbOp) :
    List UsbOp × Except String Unit :=
  let g := get_kvm_status tr ops
  match g.2 with
  | .error e => (g.1, .error e)
  | .ok c => set_kvm_status tr g.1 (1 - c)

/-- A transport that acknowledges every write in full and always replies
with a well-formed 12-byte reply carrying `v` at index 10. -/
def okTransport (v : Int) : Transport where
  writeAck := fun _ msg => msg.length
  readReply := fun _ => [0, 0, 0, 0, 0, 0, 0, 0, 0, 0, v, 0]

def countWrites (ops : List UsbOp) : Nat := (ops.filter UsbOp.isWrite).length

def countReads (ops : List UsbOp) : Nat := (ops.filter UsbOp.isRead).length

/-- A transport that acknowledges one byte short on the write whose index
(among writes) is `k`, acknowledges every other write in full, and replies
like `okTransport v` on reads. -/
def failAtTransport (v : Int) (k : Nat) : Transport where
  writeAck := fun ops msg => if countWrites ops = k then msg.length + 1 else msg.length
  readReply := fun _ => [0, 0, 0, 0, 0, 0, 0, 0, 0, 0, v, 0]

/-! ### Session lifecycle (`__enter__` / `__exit__`)

`usb.core`-level state relevant to the kernel-driver claim: whether the
device is present, whether the kernel driver is attached to interface 0,
and whether `set_configuration(1)` succeeds. -/

structure UsbDevice where
  present : Bool
  kernelDriverActive : Bool
  configOk : Bool
  deriving Repr, DecidableEq

/-- `MonitorControl.__enter__` on a given platform: find the device (raise
if absent), on non-win32 detach the kernel driver if active recording
`_had_driver`, then `set_configuration(1)` which may raise.  An exception
carries the device state reached so far. -/
def enterSession (win32 : Bool) (d : UsbDevice) :
    Except UsbDevice (UsbDevice × Bool) :=
  if d.present = false then .error d
  else
    let det := if win32 = false ∧ d.kernelDriverActive then
        ({ d with kernelDriverActive := false }, true)
      else (d, false)
    if det.1.configOk then .ok det else .error det.1

/-- `MonitorControl.__exit__`: reattach the kernel driver when
`_had_driver` was recorded; the exception arguments are ignored. -/
def exitSession (d : UsbDevice) (had_driver : Bool) : UsbDevice :=
  if had_driver then { d with kernelDriverActive := true } else d

/-- Python `with MonitorControl() as m: body` as it acts on the device
state: `__exit__` runs if and only if `__enter__` returned normally, and
it runs whether or not the body raised (`bodyFails`). -/
def withSession (win32 : Bool) (bodyFails : Bool) (d : UsbDevice) : UsbDevice :=
  match enterSession win32 d with
  | .error d1 => d1
  | .ok (d1, had) =>
    match bodyFails with
    | true => exitSession d1 had
    | false => exitSession d1 had

/-- A transport that acknowledges every write in full but answers reads
with a reply of fewer than 11 bytes. -/
def shortReplyTransport : Transport where
  writeAck := fun _ msg => msg.length
  readReply := fun _ => [0, 0, 0]

/-- The query message `get_property` sends for property `p`. -/
def getQueryMsg (p : Property) : List Int :=
  [0x6E, 0x51, 0x83, 0x01, p.message_a, p.message_b]

/-- The two operations a successful `get_property p` puts on the trace. -/
def getTraceOps (p : Property) : List UsbOp :=
  [UsbOp.write 178 0 0 (getQueryMsg p), UsbOp.read 162 0 111 12]

/-- The operation a successful `set_property (basic p) v` puts on the
trace: one write whose value byte is the clamped value. -/
def setTraceOpB (p : BasicProperty) (v : Int) : UsbOp :=
  UsbOp.write 178 0 0 [0x6E, 0x51, 0x84, 0x03, p.message_a, p.message_b, p.clamp v]

/-- `transition_property` terminates on the given inputs: some finite fuel
makes the embedded loop exit. -/
def TransitionTerminates (tr : Transport) (p : Property) (target step : Int) : Prop :=
  ∃ fuel out, transition_property tr fuel p target step = some out

/-- Specification predicate for the claim "the values passed to `set`
approach `target` monotonically, changing by exactly the signed step per
call except possibly the last, and the final value equals `target`":
`Ramp target sstep cur l` says the call-value sequence `l`, started from
running value `cur`, has this shape. -/
inductive Ramp (target sstep : Int) : Int → List Int → Prop
  | done : Ramp target sstep target []
  | last (cur : Int) : cur ≠ target → |target - cur| < |sstep| →
      Ramp target sstep cur [target]
  | step (cur : Int) (l : List Int) :
      |target - (cur + sstep)| = |target - cur| - |sstep| →
      |sstep| ≤ |target - cur| →
      Ramp target sstep (cur + sstep) l →
      Ramp target sstep cur ((cur + sstep) :: l)

/-! ## Theorems -/

/-- Unfolding lemma: a `get_property` whose query write is fully
acknowledged appends the query write and the 12-byte read to the trace and
returns index 10 of the transport's reply, or raises `IndexError` when the
reply is too short. -/
lemma get_property_run (tr : Transport) (ops : List UsbOp) (p : Property)
    (hack : tr.writeAck ops (getQueryMsg p) = (getQueryMsg p).length) :
    get_property tr ops p =
      (ops ++ getTraceOps p,
       match (tr.readReply (ops ++ [UsbOp.write 178 0 0 (getQueryMsg p)])).get? 10 with
       | some v => .ok v
       | none => .error indexErrMsg) := by
  have hmsg : ([0x6E, 0x51, 0x81 + ((List.length [p.message_a, p.message_b] : Nat) : Int), 0x01]
      ++ [p.message_a, p.message_b]) = getQueryMsg p := rfl
  unfold get_property get_osd usb_write usb_read
  simp only [hmsg]
  rw [if_pos hack]
  simp only [getTraceOps, List.append_assoc]
  cases (tr.readReply (ops ++ [UsbOp.write 178 0 0 (getQueryMsg p)])).get? 10 <;> rfl

/-- Unfolding lemma: `set_property` on a range-policy property always
issues exactly one write, carrying the clamped value byte, and raises
exactly when the transport acknowledges a different length. -/
lemma set_property_basic_run (tr : Transport) (ops : List UsbOp)
    (p : BasicProperty) (v : Int) :
    set_property tr ops (.basic p) v =
      (ops ++ [setTraceOpB p v],
       if tr.writeAck ops [0x6E, 0x51, 0x84, 0x03, p.message_a, p.message_b, p.clamp v] = 7
       then .ok () else .error mismatchMsg) := by
  have hmsg : ([0x6E, 0x51, 0x81 + ((List.length [p.message_a, p.message_b, p.clamp v] : Nat) : Int), 0x03]
      ++ [p.message_a, p.message_b, p.clamp v])
      = [0x6E, 0x51, 0x84, 0x03, p.message_a, p.message_b, p.clamp v] := rfl
  unfold set_property Property.clamp set_osd usb_write setTraceOpB
  simp only [hmsg]
  rfl

/-- With a fully acknowledging transport, `set_property` on a range-policy
property succeeds. -/
lemma set_property_ok (f : List UsbOp → List Int) (ops : List UsbOp)
    (p : BasicProperty) (c : Int) :
    set_property (Transport.mk (fun _ msg => msg.length) f) ops (.basic p) c
      = (ops ++ [setTraceOpB p c], .ok ()) := by
  rw [set_property_basic_run]
  rfl

/-- `set_property_ok` specialised to `okTransport`. -/
lemma set_property_okT (v : Int) (ops : List UsbOp) (p : BasicProperty) (c : Int) :
    set_property (okTransport v) ops (.basic p) c
      = (ops ++ [setTraceOpB p c], .ok ()) :=
  set_property_ok (okTransport v).readReply ops p c

lemma countWrites_append (ops l : List UsbOp) :
    countWrites (ops ++ l) = countWrites ops + countWrites l := by
  simp [countWrites, List.filter_append]

lemma countReads_append (ops l : List UsbOp) :
    countReads (ops ++ l) = countReads ops + countReads l := by
  simp [countReads, List.filter_append]

lemma countWrites_setTraceOpB (p : BasicProperty) (c : Int) :
    countWrites [setTraceOpB p c] = 1 := rfl

lemma countReads_map_setTraceOpB (p : BasicProperty) (l : List Int) :
    countReads (l.map (setTraceOpB p)) = 0 := by
  induction l with
  | nil => rfl
  | cons x xs ih => simp [countReads, setTraceOpB, UsbOp.isRead] at ih ⊢

/-- With a fully acknowledging transport, the embedded stepping loop is the
pure value loop with a `setTraceOpB` write appended per step. -/
lemma transition_loop_okT (v : Int) (p : BasicProperty) :
    ∀ (fuel : Nat) (ops : List UsbOp) (cur diff sstep : Int),
      transition_loop (okTransport v) (.basic p) fuel ops cur diff sstep =
        (transition_sets_loop fuel cur diff sstep).map
          (fun lc => (ops ++ lc.1.map (setTraceOpB p), .ok lc.2)) := by
  intro fuel
  induction fuel with
  | zero => intro ops cur diff sstep; rfl
  | succ n ih =>
    intro ops cur diff sstep
    unfold transition_loop transition_sets_loop
    by_cases h : |sstep| ≤ diff
    · rw [if_pos h, if_pos h]
      have hset := set_property_okT v ops p (cur + sstep)
      simp only [hset, ih]
      cases hrec : transition_sets_loop n (cur + sstep) (diff - |sstep|) sstep with
      | none => rfl
      | some lc => simp
    · rw [if_neg h, if_neg h]
      simp

/-- With a fully acknowledging transport that reports value `v`,
`transition_property` succeeds exactly when the pure value loop has enough
fuel, and its trace is the get followed by one write per value passed to
`set_property`. -/
lemma transition_property_okT (v target step : Int) (p : BasicProperty) (fuel : Nat) :
    transition_property (okTransport v) fuel (.basic p) target step =
      (transition_sets v target step fuel).map
        (fun l => (getTraceOps (.basic p) ++ l.map (setTraceOpB p), .ok ())) := by
  unfold transition_property transition_sets
  have hget := get_property_run (okTransport v) [] (.basic p) rfl
  have hrep : ((okTransport v).readReply
      ([] ++ [UsbOp.write 178 0 0 (getQueryMsg (.basic p))])).get? 10 = some v := rfl
  rw [hrep] at hget
  simp only [hget, List.nil_append]
  rw [transition_loop_okT]
  cases hrec : transition_sets_loop fuel v (|target - v|)
      (if v ≤ target then step else -step) with
  | none => rfl
  | some lc =>
    obtain ⟨l, c⟩ := lc
    simp only [Option.map_some']
    by_cases hc : c = target
    · simp [hc]
    · have hset := set_property_okT v
        (getTraceOps (.basic p) ++ l.map (setTraceOpB p)) p target
      simp [hc, hset, List.append_assoc]

/-- With step 0 the embedded loop never exits, whatever the fuel: the
countdown `diff` is never decreased and the loop guard `diff >= abs(step)`
stays true. -/
lemma transition_sets_loop_zero :
    ∀ (fuel : Nat) (cur diff : Int), 0 ≤ diff →
      transition_sets_loop fuel cur diff 0 = none := by
  intro fuel
  induction fuel with
  | zero => intros; rfl
  | succ n ih =>
    intro cur diff hd
    unfold transition_sets_loop
    rw [if_pos (by rw [abs_zero]; exact hd)]
    rw [ih (cur + 0) (diff - |0|) (by rw [abs_zero]; omega)]

/-- `transition_sets` diverges for step 0 on every input. -/
lemma transition_sets_zero (cur target : Int) (fuel : Nat) :
    transition_sets cur target 0 fuel = none := by
  have hs : (if cur ≤ target then (0:Int) else -0) = 0 := by split <;> simp
  unfold transition_sets
  simp only [hs, transition_sets_loop_zero fuel cur (|target - cur|) (abs_nonneg _)]

/-- Exit analysis of the pure stepping loop: from a nonnegative countdown
`diff` it returns the chain of values `cur + sstep·i`, the final running
value, and drives the countdown below `|sstep|` with one full `|sstep|`
decrement per issued value. -/
lemma transition_sets_loop_count (sstep : Int) :
    ∀ (fuel : Nat) (cur diff : Int) (l : List Int) (c : Int), 0 ≤ diff →
      transition_sets_loop fuel cur diff sstep = some (l, c) →
      c = cur + sstep * l.length ∧
      (l.length : Int) * |sstep| ≤ diff ∧
      diff - (l.length : Int) * |sstep| < |sstep| := by
  intro fuel
  induction fuel with
  | zero =>
    intro cur diff l c _ h
    exact absurd h (by simp [transition_sets_loop])
  | succ n ih =>
    intro cur diff l c hd h
    unfold transition_sets_loop at h
    by_cases hle : |sstep| ≤ diff
    · rw [if_pos hle] at h
      cases hrec : transition_sets_loop n (cur + sstep) (diff - |sstep|) sstep with
      | none => rw [hrec] at h; exact absurd h (by simp)
      | some lc =>
        obtain ⟨l', c'⟩ := lc
        rw [hrec] at h
        simp only [Option.some.injEq, Prod.mk.injEq] at h
        obtain ⟨hl, hc⟩ := h
        obtain ⟨ih1, ih2, ih3⟩ := ih (cur + sstep) (diff - |sstep|) l' c'
          (by linarith [le_trans (abs_nonneg sstep) hle]) hrec
        subst hl
        subst hc
        have hlen : ((((cur + sstep) :: l').length : Nat) : Int) * |sstep|
            = (l'.length : Int) * |sstep| + |sstep| := by
          simp only [List.length_cons]
          push_cast
          ring
        refine ⟨?_, ?_, ?_⟩
        · rw [ih1]
          simp only [List.length_cons]
          push_cast
          ring
        · rw [hlen]; linarith
        · rw [hlen]; linarith
    · rw [if_neg hle] at h
      simp only [Option.some.injEq, Prod.mk.injEq] at h
      obtain ⟨hl, hc⟩ := h
      subst hl
      subst hc
      refine ⟨by simp, by simpa using hd, by simpa using lt_of_not_le hle⟩

/-- With a nonzero resigned step, fuel `diff.toNat + 1` always makes the
pure stepping loop exit. -/
lemma transition_sets_loop_total (sstep : Int) (hs : sstep ≠ 0) :
    ∀ (fuel : Nat) (diff cur : Int), diff.toNat < fuel →
      ∃ l c, transition_sets_loop fuel cur diff sstep = some (l, c) := by
  intro fuel
  induction fuel with
  | zero => intro diff cur h; omega
  | succ n ih =>
    intro diff cur hfuel
    unfold transition_sets_loop
    by_cases hle : |sstep| ≤ diff
    · have h1 : 1 ≤ |sstep| := Int.one_le_abs hs
      have hfn : (diff - |sstep|).toNat < n := by
        generalize hA : |sstep| = A at h1 hle
        omega
      obtain ⟨l, c, hlc⟩ := ih (diff - |sstep|) (cur + sstep) hfn
      rw [if_pos hle, hlc]
      exact ⟨(cur + sstep) :: l, c, rfl⟩
    · rw [if_neg hle]
      exact ⟨[], cur, rfl⟩

/-- When the resigned step points from `cur` toward `target` and the
countdown is `|target - cur|` (as `transition_property` sets it up), the
loop's values ramp toward `target` in the sense of `Ramp`, and the loop
exits with its running value closer than `|sstep|` to `target`. -/
lemma transition_sets_loop_spec (target : Int) :
    ∀ (fuel : Nat) (cur sstep : Int),
      ((cur ≤ target ∧ 0 < sstep) ∨ (target ≤ cur ∧ sstep < 0)) →
      ∀ l c, transition_sets_loop fuel cur (|target - cur|) sstep = some (l, c) →
        Ramp target sstep cur (if c ≠ target then l ++ [target] else l) ∧
        |target - c| < |sstep| := by
  intro fuel
  induction fuel with
  | zero =>
    intro cur sstep _ l c h
    exact absurd h (by simp [transition_sets_loop])
  | succ n ih =>
    intro cur sstep hor l c h
    unfold transition_sets_loop at h
    by_cases hle : |sstep| ≤ |target - cur|
    · rw [if_pos hle] at h
      have hdiff : |target - cur| - |sstep| = |target - (cur + sstep)| := by
        rcases hor with ⟨hc, hs⟩ | ⟨hc, hs⟩
        · rw [abs_of_pos hs] at hle ⊢
          rw [abs_of_nonneg (by linarith)] at hle ⊢
          rw [abs_of_nonneg (by linarith)]
          ring
        · rw [abs_of_neg hs] at hle ⊢
          rw [abs_of_nonpos (by linarith)] at hle ⊢
          rw [abs_of_nonpos (by linarith)]
          ring
      have hor' : ((cur + sstep ≤ target ∧ 0 < sstep) ∨ (target ≤ cur + sstep ∧ sstep < 0)) := by
        rcases hor with ⟨hc, hs⟩ | ⟨hc, hs⟩
        · left
          refine ⟨?_, hs⟩
          rw [abs_of_pos hs, abs_of_nonneg (by linarith)] at hle
          linarith
        · right
          refine ⟨?_, hs⟩
          rw [abs_of_neg hs, abs_of_nonpos (by linarith)] at hle
          linarith
      rw [hdiff] at h
      cases hrec : transition_sets_loop n (cur + sstep) (|target - (cur + sstep)|) sstep with
      | none => rw [hrec] at h; exact absurd h (by simp)
      | some lc =>
        obtain ⟨l', c'⟩ := lc
        rw [hrec] at h
        simp only [Option.some.injEq, Prod.mk.injEq] at h
        obtain ⟨hl, hc⟩ := h
        subst hl
        subst hc
        obtain ⟨ihramp, ihend⟩ := ih (cur + sstep) sstep hor' l' c' hrec
        refine ⟨?_, ihend⟩
        by_cases hct : c' = target
        · simp only [hct, ne_eq, not_true_eq_false, if_false] at ihramp ⊢
          exact Ramp.step cur l' hdiff.symm hle ihramp
        · simp only [ne_eq, hct, not_false_eq_true, if_true, List.cons_append] at ihramp ⊢
          exact Ramp.step cur (l' ++ [target]) hdiff.symm hle ihramp
    · rw [if_neg hle] at h
      simp only [Option.some.injEq, Prod.mk.injEq] at h
      obtain ⟨hl, hc⟩ := h
      subst hl
      subst hc
      have hlt : |target - cur| < |sstep| := lt_of_not_le hle
      refine ⟨?_, hlt⟩
      by_cases hct : cur = target
      · simp only [hct, ne_eq, not_true_eq_false, if_false]
        exact hct ▸ Ramp.done
      · simp only [ne_eq, hct, not_false_eq_true, if_true, List.nil_append]
        exact Ramp.last cur hct hlt

/-- A `Ramp` with nonzero step has strictly decreasing distance to the
target along the sequence of set values. -/
lemma Ramp.chain {target sstep cur : Int} {l : List Int} (hs : sstep ≠ 0)
    (h : Ramp target sstep cur l) :
    List.Chain (fun a b => |target - b| < |target - a|) cur l := by
  induction h with
  | done => exact List.Chain.nil
  | last c hne hlt =>
    refine List.Chain.cons ?_ List.Chain.nil
    have : (0:Int) < |target - c| := abs_pos.mpr (sub_ne_zero.mpr (Ne.symm hne))
    simpa using this
  | step c l hdiff hle _ ih =>
    refine List.Chain.cons ?_ ih
    have : (0:Int) < |sstep| := abs_pos.mpr hs
    rw [hdiff]
    linarith

/-- The last value of a nonempty `Ramp` sequence is the target. -/
lemma Ramp.lastEq {target sstep cur : Int} {l : List Int}
    (h : Ramp target sstep cur l) :
    ∀ x, l.getLast? = some x → x = target := by
  induction h with
  | done => intro x hx; simp at hx
  | last c _ _ => intro x hx; simpa using hx.symm
  | step c l _ _ hr ih =>
    intro x hx
    cases l with
    | nil =>
      cases hr
      simpa using hx.symm
    | cons y ys =>
      rw [List.getLast?_cons_cons] at hx
      exact ih x hx

/-- Under `failAtTransport v k`, `set_property` on a range-policy property
raises the length-mismatch error exactly when it is the `k`-th write. -/
lemma set_property_failAt (v : Int) (k : Nat) (ops : List UsbOp)
    (p : BasicProperty) (c : Int) :
    set_property (failAtTransport v k) ops (.basic p) c
      = (ops ++ [setTraceOpB p c],
         if countWrites ops = k then .error mismatchMsg else .ok ()) := by
  rw [set_property_basic_run]
  by_cases hk : countWrites ops = k
  · simp [failAtTransport, hk]
  · simp [failAtTransport, hk]

/-- Under `failAtTransport v k`, the stepping loop never grows the trace
past the failing write: at most `k + 1` writes ever, and at most `k` when
it returns without error. -/
lemma transition_loop_failAt_bound (v : Int) (k : Nat) (p : BasicProperty) :
    ∀ (fuel : Nat) (ops : List UsbOp) (cur diff sstep : Int),
      countWrites ops ≤ k →
      ∀ out, transition_loop (failAtTransport v k) (.basic p) fuel ops cur diff sstep
          = some out →
        countWrites out.1 ≤ k + 1 ∧ (∀ c, out.2 = .ok c → countWrites out.1 ≤ k) := by
  intro fuel
  induction fuel with
  | zero =>
    intro ops cur diff sstep _ out h
    exact absurd h (by simp [transition_loop])
  | succ n ih =>
    intro ops cur diff sstep hops out h
    unfold transition_loop at h
    rw [set_property_failAt] at h
    by_cases hle : |sstep| ≤ diff
    · rw [if_pos hle] at h
      by_cases hk : countWrites ops = k
      · rw [if_pos hk] at h
        simp only [Option.some.injEq] at h
        subst h
        constructor
        · simp [countWrites_append, countWrites_setTraceOpB, hk]
        · intro c hc
          simp at hc
      · rw [if_neg hk] at h
        have hops' : countWrites (ops ++ [setTraceOpB p (cur + sstep)]) ≤ k := by
          rw [countWrites_append, countWrites_setTraceOpB]
          omega
        exact ih (ops ++ [setTraceOpB p (cur + sstep)]) (cur + sstep)
          (diff - |sstep|) sstep hops' out h
    · rw [if_neg hle] at h
      simp only [Option.some.injEq] at h
      subst h
      exact ⟨le_trans hops (Nat.le_succ k), fun c _ => hops⟩

/-- Under `failAtTransport v k` with `k ≠ 0`, the initial query write of a
`get_property` is acknowledged in full. -/
lemma getQuery_ack_failAt (v : Int) (k : Nat) (hk : k ≠ 0) (p : Property) :
    (failAtTransport v k).writeAck [] (getQueryMsg p) = (getQueryMsg p).length := by
  simp [failAtTransport, countWrites, Ne.symm hk]

/-- Under `failAtTransport v 0`, the very first write (the get's query)
already fails, and the trace holds that single write. -/
lemma get_property_failAt0 (v : Int) (p : Property) :
    get_property (failAtTransport v 0) [] p
      = ([UsbOp.write 178 0 0 (getQueryMsg p)], .error mismatchMsg) := rfl

/-- Claim C7: a host-to-device write raises `TransferLengthMismatch`
exactly when the transport acknowledges a byte count different from the
payload length, and such a failure aborts an in-progress transition: with
a transport that short-writes the `k`-th write, the whole transition trace
never holds more than `k + 1` writes. -/
theorem C7_short_write_aborts :
    (∀ (tr : Transport) (ops : List UsbOp) (br wv wi : Nat) (message : List Int),
      (usb_write tr ops br wv wi message).2 = .error mismatchMsg ↔
        tr.writeAck ops message ≠ message.length) ∧
    (∀ (v : Int) (k : Nat) (p : BasicProperty) (target step : Int) (fuel : Nat)
      (out : List UsbOp × Except String Unit),
      transition_property (failAtTransport v k) fuel (.basic p) target step = some out →
      countWrites out.1 ≤ k + 1) := by
  constructor
  · intro tr ops br wv wi message
    unfold usb_write
    by_cases h : tr.writeAck ops message = message.length
    · simp [h]
    · simp [h]
  · intro v k p target step fuel out h
    by_cases hk : k = 0
    · subst hk
      unfold transition_property at h
      rw [get_property_failAt0] at h
      simp only [Option.some.injEq] at h
      subst h
      have h1 : countWrites [UsbOp.write 178 0 0 (getQueryMsg (Property.basic p))] = 1 := rfl
      simp only [h1]
      omega
    · have hget := get_property_run (failAtTransport v k) [] (.basic p)
        (getQuery_ack_failAt v k hk (.basic p))
      have hrep : ((failAtTransport v k).readReply
          ([] ++ [UsbOp.write 178 0 0 (getQueryMsg (.basic p))])).get? 10 = some v := rfl
      rw [hrep] at hget
      unfold transition_property at h
      rw [hget] at h
      simp only [List.nil_append] at h
      have hops0 : countWrites (getTraceOps (.basic p)) ≤ k := by
        have : countWrites (getTraceOps (.basic p)) = 1 := rfl
        omega
      cases hloop : transition_loop (failAtTransport v k) (.basic p) fuel
          (getTraceOps (.basic p)) v (|target - v|)
          (if v ≤ target then step else -step) with
      | none => rw [hloop] at h; exact absurd h (by simp)
      | some out1 =>
        obtain ⟨ops1, r1⟩ := out1
        obtain ⟨hb1, hb2⟩ := transition_loop_failAt_bound v k p fuel
          (getTraceOps (.basic p)) v (|target - v|)
          (if v ≤ target then step else -step) hops0 (ops1, r1) hloop
        rw [hloop] at h
        cases r1 with
        | error e =>
          simp only [Option.some.injEq] at h
          subst h
          exact hb1
        | ok cur =>
          have hops1 : countWrites ops1 ≤ k := hb2 cur rfl
          simp only [set_property_failAt] at h
          by_cases hct : cur = target
          · simp only [hct, ne_eq, not_true_eq_false, if_false, Option.some.injEq] at h
            subst h
            exact le_trans hops1 (Nat.le_succ k)
          · simp only [ne_eq, hct, not_false_eq_true, if_true, Option.some.injEq] at h
            subst h
            simp only [countWrites_append, countWrites_setTraceOpB]
            omega

/-- Witness for C7_short_write_aborts: the transport fails the second
write (`k = 1`); the transition from reported value 10 toward 19 stops at
its first stepped `set`, leaving exactly two writes on the trace. -/
theorem C7_short_write_aborts_witness :
    countWrites [UsbOp.write 178 0 0 [0x6E, 0x51, 0x83, 0x01, 0x10, 0x00],
      UsbOp.read 162 0 111 12,
      UsbOp.write 178 0 0 [0x6E, 0x51, 0x84, 0x03, 0x10, 0x00, 13]] ≤ 1 + 1 :=
  C7_short_write_aborts.2 10 1 MonitorControl.BRIGHTNESS 19 3 20
    ([UsbOp.write 178 0 0 [0x6E, 0x51, 0x83, 0x01, 0x10, 0x00],
      UsbOp.read 162 0 111 12,
      UsbOp.write 178 0 0 [0x6E, 0x51, 0x84, 0x03, 0x10, 0x00, 13]],
     .error mismatchMsg) rfl

/-- Claim C2 counterexample: the claim quantifies over every step, but with
step `-3` (current 10, target 19) the code re-signs the step to `-3` and the
issued set values are `7, 4, 1, 19`: the first issued value is farther from
the target than the starting value, so the values do not approach the
target monotonically. -/
theorem C2_counterexample :
    transition_sets 10 19 (-3) 20 = some [7, 4, 1, 19] ∧
    ¬ List.Chain (fun a b : Int => |(19:Int) - b| < |19 - a|) 10 [7, 4, 1, 19] := by
  constructor
  · rfl
  · intro hch
    rw [List.chain_cons] at hch
    exact absurd hch.1 (by decide)

/-- Claim C2 amended: for every range property, target, and positive step,
the values `transition_property` passes to `set_property` ramp from the
initially read value to the target (`Ramp`: each call changes the running
value by exactly the re-signed step, except possibly a shorter final jump
onto the target), so they approach the target monotonically and, when any
set is issued at all, the final one's value is the target; the scenario
with current 10, target 19, step 3 issues exactly the writes 13, 16, 19
and no extra final write. -/
theorem C2_amended (current target step : Int) (fuel : Nat) (l : List Int)
    (hstep : 0 < step)
    (h : transition_sets current target step fuel = some l) :
    Ramp target (if current ≤ target then step else -step) current l ∧
    List.Chain (fun a b => |target - b| < |target - a|) current l ∧
    (∀ x, l.getLast? = some x → x = target) ∧
    transition_sets 10 19 3 20 = some [13, 16, 19] ∧
    transition_property (okTransport 10) 20 (.basic MonitorControl.BRIGHTNESS) 19 3 =
      some (getTraceOps (.basic MonitorControl.BRIGHTNESS) ++
        [setTraceOpB MonitorControl.BRIGHTNESS 13,
         setTraceOpB MonitorControl.BRIGHTNESS 16,
         setTraceOpB MonitorControl.BRIGHTNESS 19], .ok ()) := by
  have hss : (if current ≤ target then step else -step) ≠ 0 := by
    split <;> omega
  have hor : ((current ≤ target ∧ 0 < (if current ≤ target then step else -step)) ∨
      (target ≤ current ∧ (if current ≤ target then step else -step) < 0)) := by
    by_cases hc : current ≤ target
    · left; rw [if_pos hc]; exact ⟨hc, hstep⟩
    · right; rw [if_neg hc]; exact ⟨le_of_not_le hc, by omega⟩
  simp only [transition_sets] at h
  cases hloop : transition_sets_loop fuel current (|target - current|)
      (if current ≤ target then step else -step) with
  | none => rw [hloop] at h; exact absurd h (by simp)
  | some lc =>
    obtain ⟨l0, c⟩ := lc
    rw [hloop] at h
    simp only [Option.some.injEq] at h
    obtain ⟨hramp, -⟩ := transition_sets_loop_spec target fuel current
      (if current ≤ target then step else -step) hor l0 c hloop
    rw [h] at hramp
    exact ⟨hramp, Ramp.chain hss hramp, Ramp.lastEq hramp, rfl, rfl⟩

/-- Witness for C2_amended at current 10, target 19, step 3. -/
theorem C2_amended_witness :
    (0:Int) < 3 ∧
    Ramp 19 (if (10:Int) ≤ 19 then 3 else -3) 10 [13, 16, 19] :=
  ⟨by decide, (C2_amended 10 19 3 20 [13, 16, 19] (by decide) (by decide)).1⟩

/-- Claim C3 counterexample: the claim quantifies over every step, but with
step 0 the loop guard `diff >= abs(step)` never turns false (the countdown
is never decreased), so `transition_property` does not terminate: no fuel
makes the embedded loop exit. -/
theorem C3_counterexample :
    ¬ TransitionTerminates (okTransport 10) (.basic MonitorControl.BRIGHTNESS) 19 0 := by
  rintro ⟨fuel, out, h⟩
  rw [transition_property_okT, transition_sets_zero] at h
  exact absurd h (by simp)

/-- Claim C3 amended: for every range property, target, and nonzero step,
`transition_property` terminates; its trace is one get (a query write and
one read — it never re-reads between steps) followed by one write per set
value, all computed from the initially read value `rv`; the stepping loop
runs for exactly as long as its countdown `|target - rv|` remains at least
`|step|` (it ends once the remaining countdown is smaller); and one final
`set(target)` is issued if and only if the last stepped value `c` did not
land exactly on `target`. -/
theorem C3_amended (rv target step : Int) (p : BasicProperty) (hstep : step ≠ 0) :
    ∃ (fuel : Nat) (l stepped : List Int) (ops : List UsbOp) (c : Int),
      transition_sets rv target step fuel = some l ∧
      transition_property (okTransport rv) fuel (.basic p) target step
        = some (ops, .ok ()) ∧
      countReads ops = 1 ∧
      ops = getTraceOps (.basic p) ++ l.map (setTraceOpB p) ∧
      transition_sets_loop fuel rv (|target - rv|)
        (if rv ≤ target then step else -step) = some (stepped, c) ∧
      c = rv + (if rv ≤ target then step else -step) * stepped.length ∧
      (stepped.length : Int) * |step| ≤ |target - rv| ∧
      |target - rv| - (stepped.length : Int) * |step| < |step| ∧
      l = (if c ≠ target then stepped ++ [target] else stepped) := by
  have hss : (if rv ≤ target then step else -step) ≠ 0 := by
    split <;> omega
  have habs : |if rv ≤ target then step else -step| = |step| := by
    split
    · rfl
    · exact abs_neg step
  obtain ⟨stepped, c, hloop⟩ := transition_sets_loop_total
    (if rv ≤ target then step else -step) hss
    ((|target - rv|).toNat + 1) (|target - rv|) rv (Nat.lt_succ_self _)
  obtain ⟨hc, hb1, hb2⟩ := transition_sets_loop_count
    (if rv ≤ target then step else -step)
    ((|target - rv|).toNat + 1) rv (|target - rv|) stepped c (abs_nonneg _) hloop
  have hts : transition_sets rv target step ((|target - rv|).toNat + 1)
      = some (if c ≠ target then stepped ++ [target] else stepped) := by
    simp only [transition_sets]
    rw [hloop]
  have htp : transition_property (okTransport rv) ((|target - rv|).toNat + 1)
        (.basic p) target step
      = some (getTraceOps (.basic p) ++
          (if c ≠ target then stepped ++ [target] else stepped).map (setTraceOpB p),
        .ok ()) := by
    rw [transition_property_okT, hts]
    rfl
  have hreads : countReads (getTraceOps (.basic p) ++
      (if c ≠ target then stepped ++ [target] else stepped).map (setTraceOpB p)) = 1 := by
    rw [countReads_append, countReads_map_setTraceOpB]
    rfl
  rw [habs] at hb1 hb2
  exact ⟨(|target - rv|).toNat + 1,
    (if c ≠ target then stepped ++ [target] else stepped), stepped,
    getTraceOps (.basic p) ++
      (if c ≠ target then stepped ++ [target] else stepped).map (setTraceOpB p),
    c, hts, htp, hreads, rfl, hloop, hc, hb1, hb2, rfl⟩

/-- Witness for C3_amended at value 10, target 19, step 3, Brightness. -/
theorem C3_amended_witness :
    (3:Int) ≠ 0 ∧
    ∃ (fuel : Nat) (l stepped : List Int) (ops : List UsbOp) (c : Int),
      transition_sets 10 19 3 fuel = some l ∧
      transition_property (okTransport 10) fuel (.basic MonitorControl.BRIGHTNESS) 19 3
        = some (ops, .ok ()) ∧
      countReads ops = 1 ∧
      ops = getTraceOps (.basic MonitorControl.BRIGHTNESS)
        ++ l.map (setTraceOpB MonitorControl.BRIGHTNESS) ∧
      transition_sets_loop fuel 10 (|(19:Int) - 10|)
        (if (10:Int) ≤ 19 then 3 else -3) = some (stepped, c) ∧
      c = 10 + (if (10:Int) ≤ 19 then 3 else -3) * stepped.length ∧
      (stepped.length : Int) * |(3:Int)| ≤ |(19:Int) - 10| ∧
      |(19:Int) - 10| - (stepped.length : Int) * |(3:Int)| < |(3:Int)| ∧
      l = (if c ≠ 19 then stepped ++ [19] else stepped) :=
  ⟨by decide, C3_amended 10 19 3 MonitorControl.BRIGHTNESS (by decide)⟩

/-- Claim C8: for every property, `get` issues a host-to-device transfer
whose payload is `[0x6E, 0x51, 0x81 + len(args), 0x01] ++ args` with
`args = [command_major, command_minor]` (the code always sends both bytes,
which is one of the two shapes the claim allows), then fetches a 12-byte
device-to-host reply at `wIndex = 111` and returns byte index 10 of that
reply as the current value. -/
theorem C8_get_protocol (tr : Transport) (ops : List UsbOp) (p : Property)
    (hack : tr.writeAck ops (getQueryMsg p) = (getQueryMsg p).length)
    (hlen : (tr.readReply (ops ++ [UsbOp.write 178 0 0 (getQueryMsg p)])).length = 12) :
    getQueryMsg p =
      [0x6E, 0x51, 0x81 + (([p.message_a, p.message_b] : List Int).length : Int), 0x01]
        ++ [p.message_a, p.message_b] ∧
    get_property tr ops p =
      (ops ++ [UsbOp.write 178 0 0 (getQueryMsg p), UsbOp.read 162 0 111 12],
       .ok ((tr.readReply (ops ++ [UsbOp.write 178 0 0 (getQueryMsg p)])).getD 10 0)) := by
  refine ⟨rfl, ?_⟩
  rw [get_property_run tr ops p hack]
  have h10 : 10 < (tr.readReply (ops ++ [UsbOp.write 178 0 0 (getQueryMsg p)])).length := by
    omega
  have hv := List.get?_eq_get h10
  rw [getTraceOps, hv]
  rw [List.getD_eq_getElem?_getD, ← List.get?_eq_getElem?, hv]
  rfl

/-- Witness for C8_get_protocol at a concrete transport replying 7. -/
theorem C8_get_protocol_witness :
    get_property (okTransport 7) [] (.basic MonitorControl.CONTRAST) =
      ([] ++ [UsbOp.write 178 0 0 (getQueryMsg (.basic MonitorControl.CONTRAST)),
        UsbOp.read 162 0 111 12],
       .ok (((okTransport 7).readReply
         ([] ++ [UsbOp.write 178 0 0 (getQueryMsg (.basic MonitorControl.CONTRAST))])).getD 10 0)) :=
  (C8_get_protocol (okTransport 7) [] (.basic MonitorControl.CONTRAST) rfl rfl).2

/-- Claim C9: `usb_read` hands the transport's reply back without any
length check, so `get` returns byte 10 only under the precondition that
the reply has at least 11 bytes; a shorter reply makes `get` fail with the
out-of-bounds `IndexError`, which is not the `TransferLengthMismatch`
error. -/
theorem C9_reply_unchecked (tr : Transport) (ops : List UsbOp) (p : Property) :
    (∀ br wv wi ml, (usb_read tr ops br wv wi ml).2 = tr.readReply ops) ∧
    (tr.writeAck ops (getQueryMsg p) = (getQueryMsg p).length →
      ((tr.readReply (ops ++ [UsbOp.write 178 0 0 (getQueryMsg p)])).length ≤ 10 →
        (get_property tr ops p).2 = .error indexErrMsg) ∧
      (11 ≤ (tr.readReply (ops ++ [UsbOp.write 178 0 0 (getQueryMsg p)])).length →
        ∃ v, (tr.readReply (ops ++ [UsbOp.write 178 0 0 (getQueryMsg p)])).get? 10 = some v ∧
          (get_property tr ops p).2 = .ok v)) ∧
    indexErrMsg ≠ mismatchMsg := by
  refine ⟨fun br wv wi ml => rfl, fun hack => ⟨fun hshort => ?_, fun hlong => ?_⟩, by decide⟩
  · rw [get_property_run tr ops p hack]
    rw [List.get?_eq_none.mpr hshort]
  · have h10 : 10 < (tr.readReply (ops ++ [UsbOp.write 178 0 0 (getQueryMsg p)])).length := by
      omega
    refine ⟨_, List.get?_eq_get h10, ?_⟩
    rw [get_property_run tr ops p hack, List.get?_eq_get h10]

/-- Witness for C9_reply_unchecked: a transport whose reply has 3 bytes
makes `get_property` raise `IndexError`. -/
theorem C9_reply_unchecked_witness :
    (get_property shortReplyTransport [] (.basic MonitorControl.BRIGHTNESS)).2
      = .error indexErrMsg :=
  ((C9_reply_unchecked shortReplyTransport [] (.basic MonitorControl.BRIGHTNESS)).2.1
    rfl).1 (by decide)

/-- Claim C10: `toggle_kvm` always writes a value in {0, 1}: whatever byte
`c` the device reports as the current KVM status (255 included), the
written value `1 - c` is clamped into the KVM range 0-1 before
transmission, and the issued write's value byte is that clamped value. -/
theorem C10_toggle_kvm_binary (c : Int) :
    toggle_kvm (okTransport c) [] =
      (getTraceOps (.basic MonitorControl.KVM_STATUS) ++
        [setTraceOpB MonitorControl.KVM_STATUS (1 - c)], .ok ()) ∧
    (MonitorControl.KVM_STATUS.clamp (1 - c) = 0 ∨
      MonitorControl.KVM_STATUS.clamp (1 - c) = 1) ∧
    MonitorControl.KVM_STATUS.clamp (1 - 255) = 0 := by
  refine ⟨?_, ?_, by decide⟩
  · have hget := get_property_run (okTransport c) [] (.basic MonitorControl.KVM_STATUS) rfl
    have hrep : ((okTransport c).readReply
        ([] ++ [UsbOp.write 178 0 0 (getQueryMsg (.basic MonitorControl.KVM_STATUS))])).get? 10
        = some c := rfl
    rw [hrep] at hget
    unfold toggle_kvm get_kvm_status set_kvm_status
    rw [hget]
    exact set_property_ok _ _ _ _
  · unfold BasicProperty.clamp MonitorControl.KVM_STATUS
    simp only
    omega

/-- Claim C1: the fixed property registry has no Volume entry at all — no
attribute named `VOLUME` and no property with `command_major = 0x62` — so
`set_volume` and `get_volume` fail with an `AttributeError` without issuing
any transfer, contradicting the claim that they write and read a Volume
registry entry, and contradicting the script's own `__main__` test, which
calls `set_volume(20)`. -/
theorem C1_volume_missing :
    MonitorControl.classAttr "VOLUME" = none ∧
    MonitorControl.registry.all (fun pr => pr.2.message_a != 0x62) = true ∧
    (∀ (tr : Transport) (ops : List UsbOp) (v : Int),
      set_volume tr ops v = (ops, .error volumeAttrErr)) ∧
    set_volume (okTransport 0) [] 20 = ([], .error volumeAttrErr) ∧
    get_volume (okTransport 0) [] = ([], .error volumeAttrErr) := by
  refine ⟨rfl, by decide, fun tr ops v => rfl, rfl, rfl⟩

/-- Claim C4 counterexample: a device whose kernel driver is attached and
whose `set_configuration(1)` call fails.  `__enter__` detaches the driver
and then raises, so Python never calls `__exit__`: at session end the
kernel driver is detached although it was attached at session start. -/
theorem C4_counterexample :
    (UsbDevice.mk true true false).kernelDriverActive = true ∧
    (withSession false false (UsbDevice.mk true true false)).kernelDriverActive
      = false := by
  decide

/-- Claim C4 amended: when the open sequence completes (the device is
configured successfully), the kernel-driver-attached state at session end
equals the state at session start, on every platform and also when an
operation fails mid-session; but when `set_configuration` fails after the
detach, the driver is left detached. -/
theorem C4_amended (win32 bodyFails : Bool) (d : UsbDevice)
    (h : d.configOk = true) :
    (withSession win32 bodyFails d).kernelDriverActive = d.kernelDriverActive := by
  rcases d with ⟨p, k, c⟩
  cases win32 <;> cases bodyFails <;> cases p <;> cases k <;> cases c <;>
    simp_all [withSession, enterSession, exitSession]

/-- Witness for C4_amended at a concrete device. -/
theorem C4_amended_witness :
    (UsbDevice.mk true true true).configOk = true ∧
    (withSession false true (UsbDevice.mk true true true)).kernelDriverActive
      = (UsbDevice.mk true true true).kernelDriverActive :=
  ⟨rfl, C4_amended false true (UsbDevice.mk true true true) rfl⟩

/-- Claim C5: for a range-policy property whose bounds are ordered (as all
registry properties' are), `clamp v = min maximum (max minimum v)`; for an
enumeration-policy property `clamp` returns `v` unchanged when allowed and
raises otherwise; and `set_property (Brightness, 150)` puts exactly one
write on the trace whose value byte is the clamped `100`. -/
theorem C5_clamp_spec :
    (∀ p : BasicProperty, p.minimum ≤ p.maximum →
      ∀ v : Int, p.clamp v = min p.maximum (max p.minimum v)) ∧
    (∀ (p : EnumProperty) (v : Int),
      (v ∈ p.allowed → p.clamp v = .ok v) ∧
      (v ∉ p.allowed → p.clamp v = .error enumErrMsg)) ∧
    set_property (okTransport 0) [] (.basic MonitorControl.BRIGHTNESS) 150 =
      ([UsbOp.write 178 0 0 [0x6E, 0x51, 0x84, 0x03, 0x10, 0x00, 100]], .ok ()) := by
  refine ⟨fun p h v => ?_, fun p v => ⟨fun h => ?_, fun h => ?_⟩, ?_⟩
  · unfold BasicProperty.clamp
    omega
  · simp [EnumProperty.clamp, h]
  · simp [EnumProperty.clamp, h]
  · rfl

/-- Witness for C5_clamp_spec: Brightness at 150 and OSD timeout at 12. -/
theorem C5_clamp_spec_witness :
    MonitorControl.BRIGHTNESS.clamp 150
        = min MonitorControl.BRIGHTNESS.maximum
            (max MonitorControl.BRIGHTNESS.minimum 150) ∧
    MonitorControl.OSD_TIMEOUT.clamp 12 = .error enumErrMsg :=
  ⟨C5_clamp_spec.1 MonitorControl.BRIGHTNESS (by decide) 150,
   (C5_clamp_spec.2.1 MonitorControl.OSD_TIMEOUT 12).2 (by decide)⟩

/-- Claim C6: for an enumeration-policy property and a disallowed value,
`set_property` raises before any USB transfer is attempted — the operation
trace is returned unchanged; in particular `set(OSDTimeout, 12)` raises,
since 12 is not in {5, 10, 15, 20, 25, 30}. -/
theorem C6_enum_reject_no_transfer :
    (∀ (p : EnumProperty) (tr : Transport) (ops : List UsbOp) (v : Int),
      v ∉ p.allowed →
        set_property tr ops (.enum p) v = (ops, .error enumErrMsg)) ∧
    (12 : Int) ∉ MonitorControl.OSD_TIMEOUT.allowed ∧
    (∀ (tr : Transport) (ops : List UsbOp),
      set_property tr ops (.enum MonitorControl.OSD_TIMEOUT) 12
        = (ops, .error enumErrMsg)) := by
  refine ⟨fun p tr ops v h => ?_, by decide, fun tr ops => ?_⟩
  · simp [set_property, Property.clamp, EnumProperty.clamp, h]
  · simp [set_property, Property.clamp, EnumProperty.clamp,
      MonitorControl.OSD_TIMEOUT]

/-- Witness for C6 at a concrete transport and empty trace. -/
theorem C6_enum_reject_no_transfer_witness :
    set_property (okTransport 0) [] (.enum MonitorControl.OSD_TIMEOUT) 12
      = ([], .error enumErrMsg) :=
  C6_enum_reject_no_transfer.1 MonitorControl.OSD_TIMEOUT (okTransport 0) [] 12
    (by decide)

end M27Q
